import Mathlib

/-!
Shallow embedding of the answer-selection policy engine and response log of
the form-automation program in `src/main.py`, together with theorems settling
the specification claims about it.

Modelling conventions:
* An option element is represented by its display text (`String`); the
  DOM "activate/click" side effect carries no data and is dropped.
* Randomness is an explicit tape: `floats : Nat → ℚ` models successive
  `random()` draws (callers supply values in `[0,1)`), and `ints : Nat → Nat`
  models the entropy consumed by `randint`/`choice`, where a uniform draw
  from `n` alternatives is `ints k % n`.  Positions `fpos`/`ipos` index
  the next unread cell of each tape and are threaded explicitly.
* Fallible operations return `Except PyErr`; `PyErr.indexError` models
  Python's `IndexError` (raised by `choice` on an empty sequence) and
  `PyErr.valueError` models `ValueError` (raised by `randint(a, b)` when
  `a > b`, i.e. an empty range).
* Python `str.strip` / `str.lower` / the `in` substring test are modelled
  character-listwise (`pyStrip`, `pyLower`, `pyIn`); the source only ever
  handles ASCII option labels.
-/

namespace FormApp

/-- Python exceptions that the modelled code can raise. -/
inductive PyErr where
  | indexError
  | valueError
deriving DecidableEq, Repr

instance {ε α : Type} [DecidableEq ε] [DecidableEq α] : DecidableEq (Except ε α) := fun x y =>
  match x, y with
  | .ok a, .ok b =>
    if h : a = b then isTrue (by rw [h]) else isFalse (fun hc => h (Except.ok.inj hc))
  | .ok _, .error _ => isFalse (fun hc => Except.noConfusion hc)
  | .error _, .ok _ => isFalse (fun hc => Except.noConfusion hc)
  | .error e, .error f =>
    if h : e = f then isTrue (by rw [h]) else isFalse (fun hc => h (Except.error.inj hc))

/-- Python `str.lower()` (ASCII). -/
def pyLower (s : String) : String := ⟨s.data.map Char.toLower⟩

/-- Python `str.strip()`: drop leading and trailing whitespace. -/
def pyStrip (s : String) : String :=
  ⟨((s.data.dropWhile Char.isWhitespace).reverse.dropWhile Char.isWhitespace).reverse⟩

/-- Executable substring test on character lists (`needle` occurs inside `hay`). -/
def containsSub (needle : List Char) : List Char → Bool
  | [] => needle.isEmpty
  | c :: rest => needle.isPrefixOf (c :: rest) || containsSub needle rest

/-- Python `needle in hay` for strings. -/
def pyIn (needle hay : String) : Bool := containsSub needle.data hay.data

/-- The inner test of `find_prioritized_option` / the Phase A scan in
`select_multi_option` (src/main.py lines 70-71 and 113-115): case-insensitive
containment in either direction.  `option_text` is already stripped by the
caller, exactly as in the source. -/
def matches_choice (option_text prioritized : String) : Bool :=
  pyIn (pyLower prioritized) (pyLower option_text) ||
  pyIn (pyLower option_text) (pyLower prioritized)

/-- Whether an option counts as preferred: some prioritized choice matches its
stripped text (the predicate `PreferenceMatcher.is_preferred` of the spec,
inline in src/main.py lines 67-72). -/
def is_preferred (prioritized_choices : List String) (raw_text : String) : Bool :=
  prioritized_choices.any (fun pr => matches_choice (pyStrip raw_text) pr)

/-- src/main.py lines 65-73: first option in order whose text matches some
prioritized choice, else `none`. -/
def find_prioritized_option (prioritized_choices options : List String) : Option String :=
  options.find? (is_preferred prioritized_choices)

/-- The inner `for prioritized in PRIORITIZED_CHOICES` loop of Phase A in
`select_multi_option` (src/main.py lines 113-121) for one option with stripped
text `t`.  Each matching choice draws a fresh `random()`; on a passing draw
with `t` not yet buffered the option is clicked, `t` appended, and the loop
breaks.  Returns the buffer, the next float position, and whether an append
happened. -/
def scanPrefs (floats : Nat → ℚ) (p : ℚ) (t : String) :
    List String → List String → Nat → List String × Nat × Bool
  | [], buf, fpos => (buf, fpos, false)
  | pr :: rest, buf, fpos =>
    if matches_choice t pr then
      if floats fpos < p ∧ t ∉ buf then (buf ++ [t], fpos + 1, true)
      else scanPrefs floats p t rest buf (fpos + 1)
    else scanPrefs floats p t rest buf fpos

/-- Phase A of `select_multi_option` (src/main.py lines 110-121): scan options
in order, accumulating the buffer and the `prioritized_selected` flag. -/
def phaseA (floats : Nat → ℚ) (p : ℚ) (prioritized_choices : List String) :
    List String → List String → Nat → Bool → List String × Nat × Bool
  | [], buf, fpos, sel => (buf, fpos, sel)
  | o :: rest, buf, fpos, sel =>
    let S := scanPrefs floats p (pyStrip o) prioritized_choices buf fpos
    phaseA floats p prioritized_choices rest S.1 S.2.1 (sel || S.2.2)

/-- The Phase B loop body of `select_multi_option` (src/main.py lines 126-131):
`cnt` iterations, each drawing `multi_options[randint(0, len-1)]` and appending
its raw (unstripped) text when not already buffered.  `randint(0, -1)` on an
empty option list raises `ValueError`. -/
def phaseB (ints : Nat → Nat) (multi_options : List String) :
    Nat → List String → Nat → Except PyErr (List String × Nat)
  | 0, buf, ipos => .ok (buf, ipos)
  | cnt + 1, buf, ipos =>
    if multi_options.isEmpty then .error .valueError
    else
      let t := multi_options.getD (ints ipos % multi_options.length) ""
      phaseB ints multi_options cnt (if t ∈ buf then buf else buf ++ [t]) (ipos + 1)

/-- Phase B entry of `select_multi_option` (src/main.py lines 125-131):
`remaining_count = randint(1, max(1, len(multi_options) - len(buffer)))`
followed by the supplementary loop. -/
def runB (ints : Nat → Nat) (multi_options buf : List String) (fpos ipos : Nat) :
    Except PyErr (List String × Nat × Nat) :=
  let remaining_count := 1 + ints ipos % max 1 (multi_options.length - buf.length)
  match phaseB ints multi_options remaining_count buf (ipos + 1) with
  | .ok (b, ip) => .ok (b, fpos, ip)
  | .error e => .error e

/-- src/main.py lines 103-134 (`select_multi_option`): Phase A, then Phase B
when `not prioritized_selected or (len(buffer) < len(multi_options) and
random() < 0.3)` (the 0.3 draw happens only when the first two tests reach it,
mirroring Python's short-circuit evaluation).  Returns the buffer and the
final tape positions. -/
def select_multi_option (floats : Nat → ℚ) (ints : Nat → Nat) (p : ℚ)
    (prioritized_choices multi_options : List String) (fpos ipos : Nat) :
    Except PyErr (List String × Nat × Nat) :=
  let A := phaseA floats p prioritized_choices multi_options [] fpos false
  if A.2.2 = false then
    runB ints multi_options A.1 A.2.1 ipos
  else if A.1.length < multi_options.length then
    if floats A.2.1 < mkRat 3 10 then runB ints multi_options A.1 (A.2.1 + 1) ipos
    else .ok (A.1, A.2.1 + 1, ipos)
  else .ok (A.1, A.2.1, ipos)

/-- src/main.py lines 76-100 (`select_option`): draw `random()`; below the
priority probability, take the first prioritized option; otherwise (or when
none matches) `choice(options)` uniformly.  `choice` on an empty list raises
`IndexError`, caught by the source's handler which falls back to
`select_multi_option` on the same field's multi-select options.  Returns the
answer text and the final tape positions. -/
def select_option (floats : Nat → ℚ) (ints : Nat → Nat) (p : ℚ)
    (prioritized_choices options multi_options : List String) (fpos ipos : Nat) :
    Except PyErr (String × Nat × Nat) :=
  match (if floats fpos < p then find_prioritized_option prioritized_choices options
         else none) with
  | some sel => .ok (sel, fpos + 1, ipos)
  | none =>
    match options with
    | [] =>
      match select_multi_option floats ints p prioritized_choices multi_options
          (fpos + 1) ipos with
      | .ok (b, f, i) => .ok (String.intercalate "; " b, f, i)
      | .error e => .error e
    | o :: rest =>
      .ok ((o :: rest).getD (ints ipos % (o :: rest).length) "", fpos + 1, ipos + 1)

/-! Spec-side description of the supplementary pass, written from the claim's
words for comparison with the embedded code: `remaining_count` uniform in
`[1, max 1 (total - buffered)]`, exactly `remaining_count` draws with
replacement from the full option list, each appended only if not buffered. -/

/-- The texts drawn by `cnt` successive uniform picks (with replacement) from
the full option list, starting at tape position `ipos`. -/
def suppDraws (ints : Nat → Nat) (multi_options : List String) : Nat → Nat → List String
  | _, 0 => []
  | ipos, cnt + 1 =>
    multi_options.getD (ints ipos % multi_options.length) "" ::
      suppDraws ints multi_options (ipos + 1) cnt

/-- Append each drawn text to the buffer unless it is already present. -/
def supplement (draws buf : List String) : List String :=
  draws.foldl (fun b t => if t ∈ b then b else b ++ [t]) buf

/-- The supplementary pass as the claim describes it. -/
def claimSupp (ints : Nat → Nat) (multi_options buf : List String) (fpos ipos : Nat) :
    Except PyErr (List String × Nat × Nat) :=
  let remaining_count := 1 + ints ipos % max 1 (multi_options.length - buf.length)
  .ok (supplement (suppDraws ints multi_options (ipos + 1) remaining_count) buf,
        fpos, ipos + 1 + remaining_count)

/-- Multi-choice selection as the claim describes it: Phase A, then the
supplementary pass exactly when Phase A selected nothing, or it selected
something but the buffer does not cover all options and a draw is below 0.3. -/
def claimMulti (floats : Nat → ℚ) (ints : Nat → Nat) (p : ℚ)
    (prioritized_choices multi_options : List String) (fpos ipos : Nat) :
    Except PyErr (List String × Nat × Nat) :=
  let A := phaseA floats p prioritized_choices multi_options [] fpos false
  if A.2.2 = false then
    claimSupp ints multi_options A.1 A.2.1 ipos
  else if A.1.length < multi_options.length then
    if floats A.2.1 < mkRat 3 10 then claimSupp ints multi_options A.1 (A.2.1 + 1) ipos
    else .ok (A.1, A.2.1 + 1, ipos)
  else .ok (A.1, A.2.1, ipos)

/-! The response log (`save_to_csv`, src/main.py lines 137-153).  A CSV file is
a list of rows (lists of cells); the wall clock is passed in as the already
formatted timestamp produced by `strftime`. -/

/-- One wall-clock reading, as consumed by
`datetime.now().strftime('%Y-%m-%d %H:%M:%S')`. -/
structure DateTime where
  year : Nat
  month : Nat
  day : Nat
  hour : Nat
  minute : Nat
  second : Nat
deriving DecidableEq, Repr

/-- The decimal digit character for `n % 10`. -/
def digitChar10 (n : Nat) : Char := Char.ofNat (48 + n % 10)

/-- Zero-padded two-digit decimal rendering, as `%m`, `%d`, `%H`, `%M`, `%S`
produce for their in-range field values (< 100). -/
def pad2 (n : Nat) : String := ⟨[digitChar10 (n / 10), digitChar10 n]⟩

/-- Zero-padded four-digit decimal rendering, as `%Y` produces for years
below 10000. -/
def pad4 (n : Nat) : String :=
  ⟨[digitChar10 (n / 1000), digitChar10 (n / 100), digitChar10 (n / 10), digitChar10 n]⟩

/-- `strftime('%Y-%m-%d %H:%M:%S')` on a wall-clock reading. -/
def strftime (d : DateTime) : String :=
  pad4 d.year ++ "-" ++ pad2 d.month ++ "-" ++ pad2 d.day ++ " " ++
  pad2 d.hour ++ ":" ++ pad2 d.minute ++ ":" ++ pad2 d.second

/-- Whether a string matches the pattern `YYYY-MM-DD HH:MM:SS` (19 characters,
digits and fixed separators). -/
def validTimestamp (s : String) : Bool :=
  match s.data with
  | [y1, y2, y3, y4, a1, m1, m2, a2, d1, d2, a3, h1, h2, a4, mi1, mi2, a5, s1, s2] =>
    y1.isDigit && y2.isDigit && y3.isDigit && y4.isDigit && (a1 == '-') &&
    m1.isDigit && m2.isDigit && (a2 == '-') && d1.isDigit && d2.isDigit &&
    (a3 == ' ') && h1.isDigit && h2.isDigit && (a4 == ':') &&
    mi1.isDigit && mi2.isDigit && (a5 == ':') && s1.isDigit && s2.isDigit
  | _ => false

/-- `csv.DictWriter` cell lookup: `row_data` is `{'Timestamp': ts}` updated
with the record, so a record key wins over the implicit timestamp key and a
missing fieldname yields the empty rest value. -/
def rowLookup (form_data : List (String × String)) (ts : String) (f : String) : String :=
  match form_data.lookup f with
  | some v => v
  | none => if f = "Timestamp" then ts else ""

/-- src/main.py lines 137-153 (`save_to_csv`): fieldnames are recomputed from
the current record on every call as `Timestamp` followed by the record's keys
in iteration order; the header is written only when the file does not yet
exist; one data row is always appended, its cells looked up fieldname by
fieldname. -/
def save_to_csv (existing : Option (List (List String))) (form_data : List (String × String))
    (ts : String) : List (List String) :=
  let fieldnames := "Timestamp" :: form_data.map Prod.fst
  let row := fieldnames.map (rowLookup form_data ts)
  match existing with
  | none => [fieldnames, row]
  | some file => file ++ [row]

/-! Helper lemmas. -/

theorem containsSub_iff (n : List Char) : ∀ h : List Char, containsSub n h = true ↔ n <:+: h
  | [] => by simp [containsSub, List.isEmpty_iff]
  | c :: rest => by
    simp [containsSub, List.infix_cons_iff, containsSub_iff n rest]

theorem find?_eq_some_first {α : Type} (p : α → Bool) (d : α) :
    ∀ (l : List α) (a : α), l.find? p = some a ↔
      ∃ i, i < l.length ∧ l.getD i d = a ∧ p a = true ∧
        ∀ j, j < i → p (l.getD j d) = false
  | [], a => by simp
  | b :: l, a => by
    by_cases hb : p b
    · rw [List.find?_cons_of_pos _ hb]
      constructor
      · rintro ⟨rfl⟩
        exact ⟨0, by simp, rfl, hb, fun j hj => absurd hj (Nat.not_lt_zero j)⟩
      · rintro ⟨i, hi, hga, hpa, hfirst⟩
        match i with
        | 0 => exact congrArg some hga
        | k + 1 =>
          have : p ((b :: l).getD 0 d) = false := hfirst 0 (Nat.succ_pos k)
          simp only [List.getD_cons_zero] at this
          exact absurd this (by simp [hb])
    · rw [List.find?_cons_of_neg _ hb]
      have hb' : p b = false := by simpa using hb
      rw [find?_eq_some_first p d l a]
      constructor
      · rintro ⟨i, hi, hga, hpa, hfirst⟩
        refine ⟨i + 1, by simpa using hi, by simpa using hga, hpa, ?_⟩
        intro j hj
        match j with
        | 0 => simpa using hb'
        | k + 1 => simpa using hfirst k (by omega)
      · rintro ⟨i, hi, hga, hpa, hfirst⟩
        match i with
        | 0 =>
          simp only [List.getD_cons_zero] at hga
          exact absurd (hga ▸ hpa) (by simp [hb'])
        | k + 1 =>
          refine ⟨k, by simpa using hi, by simpa using hga, hpa, ?_⟩
          intro j hj
          simpa using hfirst (j + 1) (by omega)

theorem getD_mem_of_ne_nil {l : List String} (h : l ≠ []) (k : Nat) :
    l.getD (k % l.length) "" ∈ l := by
  have hlt : k % l.length < l.length :=
    Nat.mod_lt _ (List.length_pos.mpr h)
  rw [List.getD_eq_getElem _ _ hlt]
  exact List.getElem_mem hlt

theorem scanPrefs_cases (floats : Nat → ℚ) (p : ℚ) (t : String) :
    ∀ (prefs buf : List String) (fpos : Nat),
      ((scanPrefs floats p t prefs buf fpos).1 = buf ∧
        (scanPrefs floats p t prefs buf fpos).2.2 = false) ∨
      ((scanPrefs floats p t prefs buf fpos).1 = buf ++ [t] ∧
        (scanPrefs floats p t prefs buf fpos).2.2 = true ∧ t ∉ buf)
  | [], buf, fpos => Or.inl ⟨rfl, rfl⟩
  | pr :: rest, buf, fpos => by
    by_cases hm : matches_choice t pr
    · by_cases hg : floats fpos < p ∧ t ∉ buf
      · right
        simp [scanPrefs, hm, hg, hg.2]
      · have := scanPrefs_cases floats p t rest buf (fpos + 1)
        simpa [scanPrefs, hm, hg] using this
    · have := scanPrefs_cases floats p t rest buf fpos
      simpa [scanPrefs, hm] using this

theorem nodup_append_singleton {l : List String} {t : String}
    (hnd : l.Nodup) (ht : t ∉ l) : (l ++ [t]).Nodup := by
  rw [List.nodup_append]
  exact ⟨hnd, List.nodup_singleton t, fun a ha hmem => by
    simp only [List.mem_singleton] at hmem
    exact ht (hmem ▸ ha)⟩

/-- Combined invariant for the Phase A scan: the buffer only grows (as a
prefix), grows by at most one entry per option, the selected flag is false
only when nothing was appended, a true flag from a false start leaves a
non-empty buffer, and distinctness of buffer entries is preserved. -/
theorem phaseA_spec (floats : Nat → ℚ) (p : ℚ) (prefs : List String) :
    ∀ (opts buf : List String) (fpos : Nat) (sel : Bool),
      buf <+: (phaseA floats p prefs opts buf fpos sel).1 ∧
      (phaseA floats p prefs opts buf fpos sel).1.length ≤ buf.length + opts.length ∧
      ((phaseA floats p prefs opts buf fpos sel).2.2 = false →
        (phaseA floats p prefs opts buf fpos sel).1 = buf ∧ sel = false) ∧
      ((phaseA floats p prefs opts buf fpos sel).2.2 = true →
        sel = true ∨ (phaseA floats p prefs opts buf fpos sel).1 ≠ []) ∧
      (buf.Nodup → (phaseA floats p prefs opts buf fpos sel).1.Nodup)
  | [], buf, fpos, sel => by
    simp only [phaseA]
    exact ⟨List.prefix_rfl, by simp, fun hs => ⟨trivial, hs⟩, fun hs => Or.inl hs, fun h => h⟩
  | o :: rest, buf, fpos, sel => by
    simp only [phaseA]
    rcases scanPrefs_cases floats p (pyStrip o) prefs buf fpos with
      ⟨hbuf, hsel⟩ | ⟨hbuf, hsel, hnew⟩
    · rw [hbuf, hsel, Bool.or_false]
      obtain ⟨ih₁, ih₂, ih₃, ih₄, ih₅⟩ :=
        phaseA_spec floats p prefs rest buf
          (scanPrefs floats p (pyStrip o) prefs buf fpos).2.1 sel
      refine ⟨ih₁, ?_, ih₃, ih₄, ih₅⟩
      simp only [List.length_cons]
      omega
    · rw [hbuf, hsel, Bool.or_true]
      obtain ⟨ih₁, ih₂, ih₃, ih₄, ih₅⟩ :=
        phaseA_spec floats p prefs rest (buf ++ [pyStrip o])
          (scanPrefs floats p (pyStrip o) prefs buf fpos).2.1 true
      have hlenapp : (buf ++ [pyStrip o]).length = buf.length + 1 := by simp
      have hpre : buf <+: buf ++ [pyStrip o] := ⟨[pyStrip o], rfl⟩
      refine ⟨hpre.trans ih₁, ?_, ?_, ?_, ?_⟩
      · simp only [List.length_cons]
        omega
      · intro hfalse
        exact absurd (ih₃ hfalse).2 (by simp)
      · intro _
        right
        have hlen := ih₁.length_le
        intro hnil
        rw [hnil] at hlen
        simp at hlen
      · intro hnd
        exact ih₅ (nodup_append_singleton hnd hnew)

/-- The supplementary fold only appends fresh entries: the starting buffer is
a prefix, at most one entry is added per draw, and distinctness is
preserved. -/
theorem supplement_spec :
    ∀ (draws buf : List String),
      buf <+: supplement draws buf ∧
      (supplement draws buf).length ≤ buf.length + draws.length ∧
      (buf.Nodup → (supplement draws buf).Nodup)
  | [], buf => ⟨List.prefix_rfl, by simp [supplement], fun h => h⟩
  | d :: rest, buf => by
    by_cases hd : d ∈ buf
    · have hstep : supplement (d :: rest) buf = supplement rest buf := by
        simp [supplement, hd]
      obtain ⟨ih₁, ih₂, ih₃⟩ := supplement_spec rest buf
      rw [hstep]
      refine ⟨ih₁, ?_, ih₃⟩
      simp only [List.length_cons]
      omega
    · have hstep : supplement (d :: rest) buf = supplement rest (buf ++ [d]) := by
        simp [supplement, hd]
      obtain ⟨ih₁, ih₂, ih₃⟩ := supplement_spec rest (buf ++ [d])
      rw [hstep]
      have hlenapp : (buf ++ [d]).length = buf.length + 1 := by simp
      have hpre : buf <+: buf ++ [d] := ⟨[d], rfl⟩
      refine ⟨hpre.trans ih₁, ?_, fun hnd => ih₃ (nodup_append_singleton hnd hd)⟩
      simp only [List.length_cons]
      omega

theorem supplement_ne_nil (draws buf : List String) (h : draws ≠ []) :
    supplement draws buf ≠ [] := by
  obtain ⟨d, rest, rfl⟩ : ∃ d rest, draws = d :: rest := by
    cases draws with
    | nil => exact absurd rfl h
    | cons d rest => exact ⟨d, rest, rfl⟩
  by_cases hd : d ∈ buf
  · have hstep : supplement (d :: rest) buf = supplement rest buf := by
      simp [supplement, hd]
    have hpre := (supplement_spec rest buf).1
    have hlen := hpre.length_le
    have hbuf : 0 < buf.length := List.length_pos.mpr (List.ne_nil_of_mem hd)
    rw [hstep]
    exact List.length_pos.mp (by omega)
  · have hstep : supplement (d :: rest) buf = supplement rest (buf ++ [d]) := by
      simp [supplement, hd]
    have hpre := (supplement_spec rest (buf ++ [d])).1
    have hlen := hpre.length_le
    have hbuf : 0 < (buf ++ [d]).length := by simp
    rw [hstep]
    exact List.length_pos.mp (by omega)

theorem suppDraws_length (ints : Nat → Nat) (opts : List String) :
    ∀ (cnt i : Nat), (suppDraws ints opts i cnt).length = cnt
  | 0, _ => rfl
  | cnt + 1, i => by
    simp only [suppDraws, List.length_cons]
    rw [suppDraws_length ints opts cnt (i + 1)]

/-- The Phase B loop computes exactly the claim's supplementary fold (and
consumes exactly one tape cell per draw) whenever the option list is
non-empty. -/
theorem phaseB_eq (ints : Nat → Nat) (opts : List String) (hne : opts ≠ []) :
    ∀ (cnt : Nat) (buf : List String) (ipos : Nat),
      phaseB ints opts cnt buf ipos =
        .ok (supplement (suppDraws ints opts ipos cnt) buf, ipos + cnt)
  | 0, buf, ipos => by simp [phaseB, suppDraws, supplement]
  | cnt + 1, buf, ipos => by
    have hE : opts.isEmpty = false := by
      cases opts with
      | nil => exact absurd rfl hne
      | cons a l => rfl
    rw [phaseB, hE]
    simp only [Bool.false_eq_true, if_false]
    rw [phaseB_eq ints opts hne cnt _ (ipos + 1)]
    have hstep : supplement (suppDraws ints opts ipos (cnt + 1)) buf =
        supplement (suppDraws ints opts (ipos + 1) cnt)
          (if opts.getD (ints ipos % opts.length) "" ∈ buf then buf
            else buf ++ [opts.getD (ints ipos % opts.length) ""]) := rfl
    rw [hstep]
    have harith : ipos + 1 + cnt = ipos + (cnt + 1) := by omega
    rw [harith]

/-- The code's Phase B entry equals the claim's supplementary pass on a
non-empty option list. -/
theorem runB_eq (ints : Nat → Nat) (opts : List String) (hne : opts ≠ [])
    (buf : List String) (fpos ipos : Nat) :
    runB ints opts buf fpos ipos = claimSupp ints opts buf fpos ipos := by
  simp only [runB, claimSupp]
  rw [phaseB_eq ints opts hne]

theorem ne_nil_of_prefix {l₁ l₂ : List String} (h : l₁ <+: l₂) (hne : l₁ ≠ []) :
    l₂ ≠ [] := by
  have h1 := h.length_le
  have h2 := List.length_pos.mpr hne
  exact List.length_pos.mp (by omega)

theorem digitChar10_isDigit (n : Nat) : (digitChar10 n).isDigit = true := by
  have hb : ∀ m, m < 10 → (Char.ofNat (48 + m)).isDigit = true := by decide
  exact hb _ (Nat.mod_lt _ (by omega))

/-- Every formatted wall-clock reading matches the `YYYY-MM-DD HH:MM:SS`
pattern. -/
theorem validTimestamp_strftime (d : DateTime) : validTimestamp (strftime d) = true := by
  have hdata : (strftime d).data =
      [digitChar10 (d.year / 1000), digitChar10 (d.year / 100), digitChar10 (d.year / 10),
       digitChar10 d.year, '-', digitChar10 (d.month / 10), digitChar10 d.month, '-',
       digitChar10 (d.day / 10), digitChar10 d.day, ' ', digitChar10 (d.hour / 10),
       digitChar10 d.hour, ':', digitChar10 (d.minute / 10), digitChar10 d.minute, ':',
       digitChar10 (d.second / 10), digitChar10 d.second] := rfl
  unfold validTimestamp
  rw [hdata]
  simp [digitChar10_isDigit]

theorem lookup_eq_none_of_not_mem :
    ∀ (l : List (String × String)) (k : String), k ∉ l.map Prod.fst → l.lookup k = none
  | [], _, _ => rfl
  | (a, b) :: rest, k, h => by
    simp only [List.map_cons, List.mem_cons, not_or] at h
    have hka : (k == a) = false := beq_eq_false_iff_ne.mpr h.1
    simp [List.lookup, hka, lookup_eq_none_of_not_mem rest k h.2]

theorem rowLookup_timestamp (record : List (String × String)) (ts : String)
    (hT : "Timestamp" ∉ record.map Prod.fst) : rowLookup record ts "Timestamp" = ts := by
  simp [rowLookup, lookup_eq_none_of_not_mem record _ hT]

/-- With distinct keys, looking each key up in the assembled row dictionary
recovers exactly the record's values, in order. -/
theorem map_rowLookup (ts : String) :
    ∀ record : List (String × String), (record.map Prod.fst).Nodup →
      (record.map Prod.fst).map (rowLookup record ts) = record.map Prod.snd
  | [], _ => rfl
  | (k, v) :: rest, hnd => by
    simp only [List.map_cons, List.nodup_cons] at hnd ⊢
    have hk : rowLookup ((k, v) :: rest) ts k = v := by
      simp [rowLookup, List.lookup]
    rw [hk]
    refine congrArg _ ?_
    rw [← map_rowLookup ts rest hnd.2]
    apply List.map_congr_left
    intro x hx
    have hxk : (x == k) = false := beq_eq_false_iff_ne.mpr (fun he => hnd.1 (he ▸ hx))
    simp [rowLookup, List.lookup, hxk]

/-! Claim theorems. -/

/-- C1: for every non-empty option list, preference set and preference
probability, single-choice selection succeeds with exactly one answer that is
an element of the input list: the first prioritized option when the
probability gate passes and a match exists, and a uniformly drawn element of
the full list otherwise. -/
theorem C1_single_choice_totality (floats : Nat → ℚ) (ints : Nat → Nat) (p : ℚ)
    (prefs options multi_options : List String) (fpos ipos : Nat) (h : options ≠ []) :
    ∃ ans f i,
      select_option floats ints p prefs options multi_options fpos ipos = .ok (ans, f, i) ∧
      ans ∈ options ∧
      ((floats fpos < p ∧ find_prioritized_option prefs options = some ans) ∨
        ans = options.getD (ints ipos % options.length) "") := by
  obtain ⟨o, rest, rfl⟩ : ∃ o rest, options = o :: rest := by
    cases options with
    | nil => exact absurd rfl h
    | cons o rest => exact ⟨o, rest, rfl⟩
  by_cases hr : floats fpos < p
  · cases hf : find_prioritized_option prefs (o :: rest) with
    | some a =>
      refine ⟨a, fpos + 1, ipos, ?_, List.mem_of_find?_eq_some hf, Or.inl ⟨hr, rfl⟩⟩
      simp [select_option, hr, hf]
    | none =>
      refine ⟨(o :: rest).getD (ints ipos % (o :: rest).length) "", fpos + 1, ipos + 1,
        ?_, getD_mem_of_ne_nil h _, Or.inr rfl⟩
      simp [select_option, hr, hf]
  · refine ⟨(o :: rest).getD (ints ipos % (o :: rest).length) "", fpos + 1, ipos + 1,
      ?_, getD_mem_of_ne_nil h _, Or.inr rfl⟩
    simp [select_option, hr]

/-- Witness for C1 at a concrete input: probability 0, so the uniform branch
fires and returns the drawn element. -/
theorem C1_single_choice_totality_witness :
    (["Yes", "No"] : List String) ≠ [] ∧
    ∃ ans f i,
      select_option (fun _ => mkRat 1 2) (fun _ => 1) 0 [] ["Yes", "No"] [] 0 0 =
        .ok (ans, f, i) ∧
      ans ∈ ["Yes", "No"] ∧
      ((mkRat 1 2 < 0 ∧ find_prioritized_option [] ["Yes", "No"] = some ans) ∨
        ans = ["Yes", "No"].getD (1 % ["Yes", "No"].length) "") :=
  ⟨by decide,
    C1_single_choice_totality (fun _ => mkRat 1 2) (fun _ => 1) 0 [] ["Yes", "No"] [] 0 0
      (by decide)⟩

/-- C2: the preference match predicate holds iff some preference string is,
after lower-casing both and stripping the option text, a substring of the
option text or conversely; and the scan returns the first matching option in
order, with no scoring among preferences. -/
theorem C2_preference_matching (prefs : List String) (t : String)
    (options : List String) (o : String) :
    (is_preferred prefs t = true ↔
      ∃ p ∈ prefs, (pyLower p).data <:+: (pyLower (pyStrip t)).data ∨
        (pyLower (pyStrip t)).data <:+: (pyLower p).data) ∧
    (find_prioritized_option prefs options = some o ↔
      ∃ i, i < options.length ∧ options.getD i "" = o ∧ is_preferred prefs o = true ∧
        ∀ j, j < i → is_preferred prefs (options.getD j "") = false) := by
  constructor
  · simp [is_preferred, matches_choice, pyIn, containsSub_iff]
  · exact find?_eq_some_first (is_preferred prefs) "" options o

/-- C3: with preference probability 1 and preference set {"Agree"}, whatever
the random tape holds (any draw in [0,1)), single-choice selection on the
agreement scale returns "Strongly Agree", the first option in order that
matches. -/
theorem C3_deterministic_first_match (floats : Nat → ℚ) (ints : Nat → Nat)
    (multi_options : List String) (fpos ipos : Nat) (h : floats fpos < 1) :
    select_option floats ints 1 ["Agree"]
      ["Strongly Agree", "Agree", "Neutral", "Disagree"] multi_options fpos ipos =
      .ok ("Strongly Agree", fpos + 1, ipos) := by
  have hf : find_prioritized_option ["Agree"]
      ["Strongly Agree", "Agree", "Neutral", "Disagree"] = some "Strongly Agree" := by decide
  simp [select_option, h, hf]

/-- Witness for C3 at the concrete draw 0. -/
theorem C3_deterministic_first_match_witness :
    (0 : ℚ) < 1 ∧
    select_option (fun _ => 0) (fun _ => 0) 1 ["Agree"]
      ["Strongly Agree", "Agree", "Neutral", "Disagree"] [] 0 0 =
      .ok ("Strongly Agree", 1, 0) :=
  ⟨by norm_num,
    C3_deterministic_first_match (fun _ => 0) (fun _ => 0) [] 0 0 (by norm_num)⟩

/-- C4: multi-choice selection equals the claim's phase description: the
supplementary pass runs exactly when Phase A selected nothing, or it selected
something but the buffer does not cover all options and a draw is below 0.3;
when it runs, `remaining_count` lies between 1 and
`max 1 (total_options - buffer_size)` and exactly that many draws from the
full list are made, each appended only if its text is not already buffered. -/
theorem C4_phase_b_trigger_and_shape (floats : Nat → ℚ) (ints : Nat → Nat) (p : ℚ)
    (prefs opts : List String) (fpos ipos : Nat) (hne : opts ≠ []) (i bufLen : Nat) :
    select_multi_option floats ints p prefs opts fpos ipos =
      claimMulti floats ints p prefs opts fpos ipos ∧
    1 ≤ 1 + ints i % max 1 (opts.length - bufLen) ∧
    1 + ints i % max 1 (opts.length - bufLen) ≤ max 1 (opts.length - bufLen) := by
  refine ⟨?_, by omega, ?_⟩
  · simp only [select_multi_option, claimMulti, runB_eq ints opts hne]
  · have hpos : 0 < max 1 (opts.length - bufLen) := by omega
    have := Nat.mod_lt (ints i) hpos
    omega

/-- Witness for C4 at a concrete input. -/
theorem C4_phase_b_trigger_and_shape_witness :
    select_multi_option (fun _ => 0) (fun _ => 0) 1 ["Yes"] ["Yes", "No"] 0 0 =
      claimMulti (fun _ => 0) (fun _ => 0) 1 ["Yes"] ["Yes", "No"] 0 0 ∧
    1 ≤ 1 + 0 % max 1 2 ∧ 1 + 0 % max 1 2 ≤ max 1 2 :=
  C4_phase_b_trigger_and_shape (fun _ => 0) (fun _ => 0) 1 ["Yes"] ["Yes", "No"] 0 0
    (by decide) 0 0

/-- C5 (amended): on a non-empty option list the returned buffer is never
empty — in particular whenever the supplementary pass runs with its always
positive `remaining_count` — and its size never exceeds the total number of
options.  (The original bound by the number of distinct option texts fails,
see the counterexample.) -/
theorem C5_buffer_nonempty_and_bounded (floats : Nat → ℚ) (ints : Nat → Nat) (p : ℚ)
    (prefs opts : List String) (fpos ipos : Nat) (buf : List String) (f i : Nat)
    (hne : opts ≠ [])
    (h : select_multi_option floats ints p prefs opts fpos ipos = .ok (buf, f, i)) :
    buf ≠ [] ∧ buf.length ≤ opts.length := by
  have hn : 0 < opts.length := List.length_pos.mpr hne
  simp only [select_multi_option] at h
  set A := phaseA floats p prefs opts [] fpos false with hAset
  obtain ⟨hA1, hA2, hA3, hA4, hA5⟩ := phaseA_spec floats p prefs opts [] fpos false
  rw [← hAset] at hA1 hA2 hA3 hA4 hA5
  have hAlen : A.1.length ≤ opts.length := by simpa using hA2
  by_cases hsel : A.2.2 = false
  · rw [if_pos hsel, runB_eq ints opts hne] at h
    obtain ⟨hA0, -⟩ := hA3 hsel
    rw [hA0] at h
    simp only [claimSupp, List.length_nil, Nat.sub_zero, Except.ok.injEq,
      Prod.mk.injEq] at h
    obtain ⟨hbuf, -, -⟩ := h
    have hmax : max 1 opts.length = opts.length := Nat.max_eq_right hn
    rw [hmax] at hbuf
    set cnt := 1 + ints ipos % opts.length with hcnt
    have hdlen := suppDraws_length ints opts cnt (ipos + 1)
    have hdne : suppDraws ints opts (ipos + 1) cnt ≠ [] := by
      intro hnil
      rw [hnil] at hdlen
      simp at hdlen
      omega
    have hcnt2 : cnt ≤ opts.length := by
      have := Nat.mod_lt (ints ipos) hn
      omega
    constructor
    · rw [← hbuf]
      exact supplement_ne_nil _ _ hdne
    · rw [← hbuf]
      have hs := (supplement_spec (suppDraws ints opts (ipos + 1) cnt) []).2.1
      rw [hdlen] at hs
      simp only [List.length_nil] at hs
      omega
  · have hsel' : A.2.2 = true := by simpa using hsel
    rw [if_neg hsel] at h
    have hAne : A.1 ≠ [] := (hA4 hsel').resolve_left (by simp)
    by_cases hlt : A.1.length < opts.length
    · rw [if_pos hlt] at h
      by_cases hg : floats A.2.1 < mkRat 3 10
      · rw [if_pos hg, runB_eq ints opts hne] at h
        simp only [claimSupp, Except.ok.injEq, Prod.mk.injEq] at h
        obtain ⟨hbuf, -, -⟩ := h
        have hmax : max 1 (opts.length - A.1.length) = opts.length - A.1.length :=
          Nat.max_eq_right (by omega)
        rw [hmax] at hbuf
        set cnt := 1 + ints ipos % (opts.length - A.1.length) with hcnt
        have hdlen := suppDraws_length ints opts cnt (ipos + 1)
        have hmod : ints ipos % (opts.length - A.1.length) < opts.length - A.1.length :=
          Nat.mod_lt _ (by omega)
        constructor
        · rw [← hbuf]
          exact ne_nil_of_prefix (supplement_spec _ _).1 hAne
        · rw [← hbuf]
          have hs := (supplement_spec (suppDraws ints opts (ipos + 1) cnt) A.1).2.1
          rw [hdlen] at hs
          omega
      · rw [if_neg hg] at h
        simp only [Except.ok.injEq, Prod.mk.injEq] at h
        obtain ⟨hbuf, -, -⟩ := h
        rw [← hbuf]
        exact ⟨hAne, hAlen⟩
    · rw [if_neg hlt] at h
      simp only [Except.ok.injEq, Prod.mk.injEq] at h
      obtain ⟨hbuf, -, -⟩ := h
      rw [← hbuf]
      exact ⟨hAne, hAlen⟩

/-- Witness for C5 at a concrete input (Phase A selects "Yes", the 0.3 gate
fails, the buffer is the single selected text). -/
theorem C5_buffer_nonempty_and_bounded_witness :
    (["Yes"] : List String) ≠ [] ∧
    (["Yes"] : List String).length ≤ (["Yes", "No"] : List String).length :=
  C5_buffer_nonempty_and_bounded (fun n => if n = 0 then 0 else mkRat 1 2) (fun _ => 0)
    1 ["Yes"] ["Yes", "No"] 0 0 ["Yes"] 2 0 (by decide) (by decide)

/-- C5 counterexample: with two options whose raw texts are both `" A "`
(a single distinct text), Phase A buffers the stripped `"A"` and the
supplementary pass then buffers the raw `" A "`, so the returned buffer has
two entries — more than the count of distinct option texts. -/
theorem C5_distinct_text_bound_counterexample :
    select_multi_option (fun _ => 0) (fun _ => 0) 1 ["A"] [" A ", " A "] 0 0 =
      .ok (["A", " A "], 3, 2) ∧
    ([" A ", " A "] : List String).dedup.length = 1 ∧
    ¬ ((["A", " A "] : List String).length ≤ ([" A ", " A "] : List String).dedup.length) := by
  decide

/-- C6 (amended): the returned buffer never repeats a text under exact string
equality, whichever phase appended it.  (Robustness to surrounding whitespace
fails: Phase A buffers stripped text while Phase B compares raw text, see the
counterexample.) -/
theorem C6_buffer_texts_distinct (floats : Nat → ℚ) (ints : Nat → Nat) (p : ℚ)
    (prefs opts : List String) (fpos ipos : Nat) (buf : List String) (f i : Nat)
    (h : select_multi_option floats ints p prefs opts fpos ipos = .ok (buf, f, i)) :
    buf.Nodup := by
  rcases eq_or_ne opts [] with rfl | hne
  · exfalso
    simp [select_multi_option, phaseA, runB, phaseB, Nat.mod_one] at h
  · simp only [select_multi_option] at h
    set A := phaseA floats p prefs opts [] fpos false with hAset
    obtain ⟨hA1, hA2, hA3, hA4, hA5⟩ := phaseA_spec floats p prefs opts [] fpos false
    rw [← hAset] at hA1 hA2 hA3 hA4 hA5
    have hAnodup : A.1.Nodup := hA5 List.nodup_nil
    by_cases hsel : A.2.2 = false
    · rw [if_pos hsel, runB_eq ints opts hne] at h
      simp only [claimSupp, Except.ok.injEq, Prod.mk.injEq] at h
      obtain ⟨hbuf, -, -⟩ := h
      rw [← hbuf]
      exact (supplement_spec _ _).2.2 hAnodup
    · rw [if_neg hsel] at h
      by_cases hlt : A.1.length < opts.length
      · rw [if_pos hlt] at h
        by_cases hg : floats A.2.1 < mkRat 3 10
        · rw [if_pos hg, runB_eq ints opts hne] at h
          simp only [claimSupp, Except.ok.injEq, Prod.mk.injEq] at h
          obtain ⟨hbuf, -, -⟩ := h
          rw [← hbuf]
          exact (supplement_spec _ _).2.2 hAnodup
        · rw [if_neg hg] at h
          simp only [Except.ok.injEq, Prod.mk.injEq] at h
          obtain ⟨hbuf, -, -⟩ := h
          rw [← hbuf]
          exact hAnodup
      · rw [if_neg hlt] at h
        simp only [Except.ok.injEq, Prod.mk.injEq] at h
        obtain ⟨hbuf, -, -⟩ := h
        rw [← hbuf]
        exact hAnodup

/-- Witness for C6 at a concrete input. -/
theorem C6_buffer_texts_distinct_witness : (["Yes"] : List String).Nodup :=
  C6_buffer_texts_distinct (fun n => if n = 0 then 0 else mkRat 1 2) (fun _ => 0)
    1 ["Yes"] ["Yes", "No"] 0 0 ["Yes"] 2 0 (by decide)

/-- C6 counterexample: an option whose text carries surrounding whitespace is
buffered twice — stripped by Phase A, raw by Phase B — so modulo whitespace
the same option text appears twice in one returned buffer. -/
theorem C6_whitespace_duplicate_counterexample :
    select_multi_option (fun _ => 0) (fun _ => 0) 1 ["A"] [" A ", " A "] 0 0 =
      .ok (["A", " A "], 3, 2) ∧
    ¬ ((["A", " A "] : List String).map pyStrip).Nodup := by
  decide

/-- C7: appending a record to a non-existent log writes a header of
`Timestamp` followed by exactly this record's keys in order, then one data row
of the formatted wall-clock timestamp followed by the record's values; the
timestamp matches `YYYY-MM-DD HH:MM:SS`. -/
theorem C7_fresh_log_header_and_row (d : DateTime) (record : List (String × String))
    (hnd : (record.map Prod.fst).Nodup) (hT : "Timestamp" ∉ record.map Prod.fst) :
    save_to_csv none record (strftime d) =
      ["Timestamp" :: record.map Prod.fst, strftime d :: record.map Prod.snd] ∧
    validTimestamp (strftime d) = true := by
  refine ⟨?_, validTimestamp_strftime d⟩
  simp only [save_to_csv, List.map_cons]
  rw [rowLookup_timestamp record _ hT, map_rowLookup _ record hnd]

/-- Witness for C7: the spec's Scenario C record. -/
theorem C7_fresh_log_header_and_row_witness :
    save_to_csv none [("Age", "18-24")] (strftime ⟨2024, 1, 15, 12, 30, 45⟩) =
      [["Timestamp", "Age"], [strftime ⟨2024, 1, 15, 12, 30, 45⟩, "18-24"]] ∧
    validTimestamp (strftime ⟨2024, 1, 15, 12, 30, 45⟩) = true := by
  simpa using
    C7_fresh_log_header_and_row ⟨2024, 1, 15, 12, 30, 45⟩ [("Age", "18-24")]
      (by decide) (by decide)

/-- C8 (amended): appending to an existing log neither fails nor drops
values: the row is always formed from the current record's own keys
(timestamp followed by its values), regardless of what header the file
already carries — so keys absent from the original header land under the
stale header columns. -/
theorem C8_append_uses_own_keys (file : List (List String))
    (record : List (String × String)) (ts : String)
    (hnd : (record.map Prod.fst).Nodup) (hT : "Timestamp" ∉ record.map Prod.fst) :
    save_to_csv (some file) record ts = file ++ [ts :: record.map Prod.snd] := by
  simp only [save_to_csv, List.map_cons]
  rw [rowLookup_timestamp record _ hT, map_rowLookup _ record hnd]

/-- Witness for C8's amended statement. -/
theorem C8_append_uses_own_keys_witness :
    save_to_csv (some [["Timestamp", "A"], ["t1", "1"]]) [("B", "2")] "t2" =
      [["Timestamp", "A"], ["t1", "1"], ["t2", "2"]] := by
  simpa using
    C8_append_uses_own_keys [["Timestamp", "A"], ["t1", "1"]] [("B", "2")] "t2"
      (by decide) (by decide)

/-- C8 counterexample: a second record whose key `"B"` is disjoint from the
first-written header `Timestamp,A` is neither rejected nor dropped: its value
`"2"` is written into the file as a row under the stale header. -/
theorem C8_stale_header_counterexample :
    save_to_csv none [("A", "1")] "t1" = [["Timestamp", "A"], ["t1", "1"]] ∧
    "B" ∉ (["Timestamp", "A"] : List String) ∧
    save_to_csv (some [["Timestamp", "A"], ["t1", "1"]]) [("B", "2")] "t2" =
      [["Timestamp", "A"], ["t1", "1"], ["t2", "2"]] := by
  decide

/-- C9 (amended): selecting from a field with zero single-select and zero
multi-select options does not raise a dedicated "no selectable options"
condition: `choice` raises `IndexError`, the fallback runs the multi-select
path, and `randint(0, -1)` on the empty range raises the unrelated
`ValueError`, which propagates. -/
theorem C9_empty_options_raise_value_error (floats : Nat → ℚ) (ints : Nat → Nat)
    (p : ℚ) (prefs : List String) (fpos ipos : Nat) :
    select_option floats ints p prefs [] [] fpos ipos = .error .valueError := by
  by_cases hr : floats fpos < p
  · simp [select_option, hr, find_prioritized_option, select_multi_option, phaseA, runB,
      phaseB, Nat.mod_one]
  · simp [select_option, hr, find_prioritized_option, select_multi_option, phaseA, runB,
      phaseB, Nat.mod_one]

/-- C9 counterexample: at a concrete empty field the selection crashes with
the ambiguous `ValueError` from `randint`'s empty range — no specific
"no selectable options" condition exists anywhere in the code. -/
theorem C9_empty_options_counterexample :
    select_option (fun _ => 0) (fun _ => 0) (mkRat 6 10) ["Agree"] [] [] 0 0 =
      .error .valueError := by
  decide

/-- C10: in Phase A the probability gate is drawn once per matching
preference string, not once per option: here "Strongly Agree" matches both
configured preferences, the draw for the first matching preference fails
(9/10 is not below 6/10), a second draw is consumed (the final float position
is 2), and the option is selected anyway because the second draw passes. -/
theorem C10_gate_drawn_per_matching_preference :
    matches_choice (pyStrip "Strongly Agree") "Agree" = true ∧
    matches_choice (pyStrip "Strongly Agree") "Strongly" = true ∧
    ¬ (mkRat 9 10 < mkRat 6 10) ∧
    mkRat 1 10 < mkRat 6 10 ∧
    select_multi_option (fun n => if n = 0 then mkRat 9 10 else mkRat 1 10) (fun _ => 0)
      (mkRat 6 10) ["Agree", "Strongly"] ["Strongly Agree"] 0 0 =
      .ok (["Strongly Agree"], 2, 0) := by
  decide

end FormApp
